import Mathlib

/-!
Verification of the LitReview desktop configuration and streaming front end.

The definitions below are a shallow embedding of the TypeScript sources
under `litreview-desktop/src`:

* `useLlmStream.ts` — the `llm-stream` event listener and its hook state;
* `useConfig.ts` — `toRustConfig`, the load-time provider normalization,
  `saveAppConfig` and `deleteProvider`;
* `ApiConfigPage.tsx` / `SettingsModal.tsx` — `handleTest`, the
  test-connection path.

The Rust backend (the Tauri commands `start_llm_stream`,
`save_toml_config`, `load_toml_config`, `test_llm_connection`) is not part
of the TypeScript tree; where a property depends on it, the backend is
modelled from the specification and the doc comment of the definition says so.
-/

namespace LitReview

/-- JavaScript truthiness of an optional string: `undefined`/`null` and the
empty string are falsy, every other string is truthy. -/
def jsTruthy : Option String → Bool
  | none => false
  | some s => s ≠ ""

/-- Payload of one `llm-stream` event, from `useLlmStream.ts`
(`LlmStreamEvent`): `stream_id`, `delta`, `done`, optional `error`. -/
structure LlmStreamEvent where
  stream_id : String
  delta : String
  done : Bool
  error : Option String
deriving DecidableEq, Repr

/-- The state owned by the `useLlmStream` hook: the `content`, `loading`,
`error` and `streamId` React states plus the `activeStreamId` ref. -/
structure HookState where
  content : String
  loading : Bool
  error : Option String
  streamId : Option String
  activeStreamId : Option String
deriving DecidableEq, Repr

/-- The `llm-stream` listener body in `useLlmStream.ts`: drop events whose
`stream_id` differs from `activeStreamId.current`; a truthy `error` sets the
error state and clears `loading` and returns; a truthy (non-empty) `delta`
is appended to `content`; `done` clears `loading`. -/
def onLlmStreamEvent (s : HookState) (e : LlmStreamEvent) : HookState :=
  if s.activeStreamId ≠ some e.stream_id then s
  else if jsTruthy e.error then { s with error := e.error, loading := false }
  else
    let s1 := if e.delta ≠ "" then { s with content := s.content ++ e.delta } else s
    if e.done then { s1 with loading := false } else s1

/-- Processing a list of `llm-stream` events in arrival order. -/
def processEvents (s : HookState) (es : List LlmStreamEvent) : HookState :=
  es.foldl onLlmStreamEvent s

/-- The concatenation, in order, of the `delta` fields of a list of events. -/
def concatDeltas : List LlmStreamEvent → String
  | [] => ""
  | e :: rest => e.delta ++ concatDeltas rest

/-! Configuration model, from `useConfig.ts`. Provider entries cross the
Tauri boundary as plain JavaScript objects, so an entry is modelled with
its known optional fields plus an `extras` bag for unknown keys. -/

/-- A provider entry as a JavaScript object: the fields named in
`useConfig.ts` (`provider_type`, legacy `type`, `base_url`, `api_key`,
`model`, `context_window`, `api_version`) plus `extras`, the unknown keys
the object may carry. -/
structure RawProvider where
  provider_type : Option String
  type : Option String
  base_url : String
  api_key : String
  model : String
  context_window : Option Nat
  api_version : Option String
  extras : List (String × String)
deriving DecidableEq, Repr

/-- An `AppConfig` object: `default`, the `providers` map (modelled as an
association list in key-insertion order) and unknown top-level keys. -/
structure AppConfig where
  default : String
  providers : List (String × RawProvider)
  extras : List (String × String)
deriving DecidableEq, Repr

/-- The error message thrown by `toRustConfig` for a provider whose
`provider_type ?? type` is missing or empty. -/
def missingMsg (n : String) : String :=
  "Missing provider_type for provider \"" ++ n ++ "\""

/-- The per-provider body of `toRustConfig` in `useConfig.ts`: resolve
`p.provider_type ?? p.type`; a falsy result throws; otherwise build a fresh
object with exactly the fields `type`, `base_url`, `api_key`, `model`,
`context_window`, `api_version` (so no `provider_type` and no unknown
keys). -/
def toRustProvider (name : String) (p : RawProvider) : Except String RawProvider :=
  if jsTruthy (p.provider_type.orElse fun _ => p.type) then
    .ok { provider_type := none, type := p.provider_type.orElse fun _ => p.type,
          base_url := p.base_url, api_key := p.api_key, model := p.model,
          context_window := p.context_window, api_version := p.api_version,
          extras := [] }
  else
    .error (missingMsg name)

/-- The `for` loop of `toRustConfig`: convert every provider entry in
order, propagating the first thrown error. -/
def toRustProviders : List (String × RawProvider) →
    Except String (List (String × RawProvider))
  | [] => .ok []
  | (n, p) :: rest => do
      let w ← toRustProvider n p
      let ws ← toRustProviders rest
      return (n, w) :: ws

/-- `toRustConfig` in `useConfig.ts`: the returned object has exactly the
keys `default` and `providers`, so unknown top-level keys are dropped. -/
def toRustConfig (cfg : AppConfig) : Except String AppConfig := do
  let provs ← toRustProviders cfg.providers
  return { default := cfg.default, providers := provs, extras := [] }

/-- `saveAppConfig` in `useConfig.ts` evaluates `toRustConfig` to build the
argument of `invoke("save_toml_config", …)`; a throw inside `toRustConfig`
happens before the invoke, so on error no document is handed to the
backend and the persisted catalogue is unchanged. The returned value is
the wire document passed to `save_toml_config`. -/
def saveAppConfig (cfg : AppConfig) : Except String AppConfig :=
  toRustConfig cfg

/-- The per-provider normalization in `useConfig.ts` `loadConfig`: set
`provider_type` to `p.provider_type ?? p.type ?? "openai"` and build a
fresh object with exactly the fields `provider_type`, `base_url`,
`api_key`, `model`, `context_window`, `api_version`. -/
def normalizeProvider (p : RawProvider) : RawProvider :=
  { provider_type := some (((p.provider_type.orElse fun _ => p.type)).getD "openai"),
    type := none, base_url := p.base_url, api_key := p.api_key,
    model := p.model, context_window := p.context_window,
    api_version := p.api_version, extras := [] }

/-- The `loadConfig` normalization of a whole document: keep `default`,
normalize every provider, drop unknown top-level keys. This function is
total: a provider entry with neither `provider_type` nor `type` does not
make the load path fail. -/
def loadNormalizeConfig (cfg : AppConfig) : AppConfig :=
  { default := cfg.default,
    providers := cfg.providers.map fun kv => (kv.1, normalizeProvider kv.2),
    extras := [] }

/-- The save-then-load round trip observed by the UI: `toRustConfig`, then
the backend `save_toml_config`/`load_toml_config` pair, then the
`loadConfig` normalization. Modelled from the spec: the Rust backend store
is not under the TypeScript tree; per the round-trip property stated in
the specification it is modelled as preserving the wire document exactly
(the most favourable reading, with unknown keys kept). -/
def saveThenLoad (cfg : AppConfig) : Except String AppConfig :=
  (toRustConfig cfg).map loadNormalizeConfig

/-! Typed configuration as held in React state (`ProviderConfig` in
`useLlmStream.ts`): after the load normalization every provider has a
plain string `provider_type`. -/

/-- The TypeScript `ProviderConfig` interface from `useLlmStream.ts`. -/
structure ProviderConfig where
  provider_type : String
  base_url : String
  api_key : String
  model : String
  context_window : Option Nat
  api_version : Option String
deriving DecidableEq, Repr

/-- The typed `AppConfig` held in the `useConfig` React state. -/
structure TsAppConfig where
  default : String
  providers : List (String × ProviderConfig)
deriving DecidableEq, Repr

/-- Catalogue invariant from the specification: the providers map is
non-empty and `default` names an existing provider. -/
def cfgInvariant (cfg : TsAppConfig) : Prop :=
  cfg.providers ≠ [] ∧ cfg.default ∈ cfg.providers.map Prod.fst

instance (cfg : TsAppConfig) : Decidable (cfgInvariant cfg) := by
  unfold cfgInvariant; infer_instance

/-- The name of the first provider, in order, whose `provider_type` is
falsy — on the typed config `toRustConfig` throws exactly for these. -/
def firstTsOffender (l : List (String × ProviderConfig)) : Option String :=
  (l.find? fun kv => kv.2.provider_type = "").map Prod.fst

/-- `saveAppConfig` specialised to the typed config: `toRustConfig` throws
on the first provider with an empty `provider_type`; otherwise the save
succeeds and the React state becomes the new config. -/
def saveTsConfig (cfg : TsAppConfig) : Except String TsAppConfig :=
  match firstTsOffender cfg.providers with
  | some n => .error (missingMsg n)
  | none => .ok cfg

/-- `deleteProvider` in `useConfig.ts`: deleting the last provider throws;
otherwise the entry is removed, `default` is reassigned to the first
remaining key when it named the deleted provider, and the new config is
saved. In the JavaScript source `Object.keys(newProviders)[0]` would be
`undefined` on an empty map; that case is modelled by keeping the old
default and is unreachable when keys are unique. -/
def deleteProvider (cfg : TsAppConfig) (name : String) : Except String TsAppConfig :=
  if cfg.providers.length ≤ 1 then
    .error "Cannot delete the last provider"
  else
    let newProviders := cfg.providers.filter fun kv => kv.1 ≠ name
    let newDefault :=
      if cfg.default = name then ((newProviders.head?.map Prod.fst).getD cfg.default)
      else cfg.default
    saveTsConfig { default := newDefault, providers := newProviders }

/-! The Rust dispatcher. The Tauri commands live in the Rust crate, which
is not part of the TypeScript tree; the following definitions are modelled
from the specification. -/

/-- Modelled from the spec: the error taxonomy entry `InvalidConfig`
raised by the missing Rust dispatcher when a `ProviderRecord` passed to
`start_stream`/`test_connection` fails validation. -/
inductive DispatchError
  | invalidConfig
deriving DecidableEq, Repr

/-- The argument object of the `start_llm_stream` Tauri command, as sent
by `useLlmStream.startStream`. -/
structure StartReq where
  provider_type : String
  base_url : String
  api_key : String
  model : String
  prompt : String
  api_version : Option String
  system_prompt : Option String
deriving DecidableEq, Repr

/-- Character-list prefix test (equivalent to `String.startsWith`, stated
on `String.data` so that concrete instances evaluate). -/
def strHasPrefix (pre u : String) : Bool :=
  pre.data.isPrefixOf u.data

/-- Modelled from the spec: a `base_url` is valid when it is an absolute
HTTP or HTTPS URL. -/
def validBaseUrl (u : String) : Bool :=
  strHasPrefix "http://" u || strHasPrefix "https://" u

/-- Modelled from the spec: the validation `start_stream` performs —
`base_url` absolute HTTP/HTTPS, and a Claude record must carry a non-empty
`api_version`. -/
def validateStart (r : StartReq) : Bool :=
  validBaseUrl r.base_url &&
    (r.provider_type ≠ "claude" || jsTruthy r.api_version)

/-- Modelled from the spec: the upstream URL built by the adapter selected
by `provider_type`. -/
def buildRequestUrl (r : StartReq) : String :=
  if r.provider_type = "claude" then r.base_url ++ "/v1/messages"
  else if r.provider_type = "gemini" then
    r.base_url ++ "/v1beta/models/" ++ r.model ++ ":streamGenerateContent"
  else r.base_url ++ "/chat/completions"

/-- The outbound HTTP request of a session; constructing one is the first
network I/O a stream performs. -/
structure HttpRequest where
  url : String
deriving DecidableEq, Repr

/-- Modelled from the spec: the missing Rust `start_llm_stream` command —
validate the record first and fail with `InvalidConfig` before any network
I/O (no `HttpRequest` value exists on the error path); on success mint the
stream id and issue the adapter-built request. -/
def start_llm_stream (r : StartReq) (sid : String) :
    Except DispatchError (String × HttpRequest) :=
  if validateStart r then .ok (sid, { url := buildRequestUrl r })
  else .error .invalidConfig

/-- An event published on the Tauri event system together with the channel
name it is published on. -/
structure Published where
  channel : String
  event : LlmStreamEvent
deriving DecidableEq, Repr

/-- Modelled from the spec: the Event Bus is the single channel named
`llm-stream`; a session publishes each normalized delta in order followed
by its terminal event, all on that channel. `upstream` is the list of
deltas produced by the upstream response. -/
def sessionEvents (sid : String) (upstream : List String) : List Published :=
  (upstream.map fun d =>
    { channel := "llm-stream", event := { stream_id := sid, delta := d, done := false, error := none } })
    ++ [{ channel := "llm-stream", event := { stream_id := sid, delta := "", done := true, error := none } }]

/-- The `start_llm_stream` invocation made by `handleTest` in
`ApiConfigPage.tsx` and `SettingsModal.tsx`: the provider under edit plus
the fixed probe prompt. -/
def handleTestRequest (p : ProviderConfig) : StartReq :=
  { provider_type := p.provider_type, base_url := p.base_url,
    api_key := p.api_key, model := p.model,
    prompt := "Say \x27OK\x27 in one word.", api_version := p.api_version,
    system_prompt := none }

/-- The events published as a consequence of the test-connection probe:
`handleTest` starts a real stream via `start_llm_stream`, whose session
publishes on the bus (modelled from the spec for the missing Rust side);
a rejected start publishes nothing. -/
def handleTestPublished (p : ProviderConfig) (sid : String)
    (upstream : List String) : List Published :=
  match start_llm_stream (handleTestRequest p) sid with
  | .error _ => []
  | .ok _ => sessionEvents sid upstream

/-- A provider object whose `provider_type ?? type` resolution is falsy:
exactly the entries `toRustConfig` throws on. -/
def rawOffender (p : RawProvider) : Bool :=
  ! jsTruthy (p.provider_type.orElse fun _ => p.type)

/-- A provider object in the shape the `loadConfig` normalization
produces: a truthy `provider_type`, no legacy `type` field and no unknown
keys. -/
def isNormalizedProv (p : RawProvider) : Prop :=
  jsTruthy p.provider_type = true ∧ p.type = none ∧ p.extras = []

/-! Concrete example values used to instantiate the theorems below. -/

/-- An OpenAI provider entry carrying the unknown extra key `note`. -/
def c1CexProvider : RawProvider :=
  { provider_type := some "openai", type := none,
    base_url := "https://api.openai.com/v1", api_key := "sk-x",
    model := "gpt-4o", context_window := some 128000, api_version := none,
    extras := [("note", "keep-me")] }

/-- A one-provider catalogue whose entry carries an unknown extra key. -/
def c1CexConfig : AppConfig :=
  { default := "openai", providers := [("openai", c1CexProvider)], extras := [] }

/-- A catalogue whose entries are all in normalized shape. -/
def c1WitConfig : AppConfig :=
  { default := "claude",
    providers :=
      [("claude",
        { provider_type := some "claude", type := none,
          base_url := "https://api.anthropic.com", api_key := "sk-ant",
          model := "claude-sonnet-4-20250514", context_window := some 200000,
          api_version := some "2023-06-01", extras := [] })],
    extras := [] }

/-- A well-formed Claude start request. -/
def c2Req : StartReq :=
  { provider_type := "claude", base_url := "https://api.anthropic.com",
    api_key := "k", model := "claude-sonnet-4-20250514", prompt := "hi",
    api_version := some "2023-06-01", system_prompt := none }

/-- Hook state right after `startStream` succeeded for stream `s1`. -/
def c3State : HookState :=
  { content := "", loading := true, error := none, streamId := some "s1",
    activeStreamId := some "s1" }

/-- Three in-order deltas for stream `s1`, the middle one empty. -/
def c3Events : List LlmStreamEvent :=
  [{ stream_id := "s1", delta := "He", done := false, error := none },
   { stream_id := "s1", delta := "", done := false, error := none },
   { stream_id := "s1", delta := "llo", done := true, error := none }]

/-- Hook state whose active stream is `s1`. -/
def c4State : HookState :=
  { content := "abc", loading := true, error := none, streamId := some "s1",
    activeStreamId := some "s1" }

/-- A stale event from a different stream `s0`. -/
def c4Event : LlmStreamEvent :=
  { stream_id := "s0", delta := "zzz", done := true, error := some "boom" }

/-- The provider under edit when the test button is pressed. -/
def c5Provider : ProviderConfig :=
  { provider_type := "openai", base_url := "https://api.openai.com/v1",
    api_key := "sk-x", model := "gpt-4o", context_window := some 128000,
    api_version := none }

/-- The second provider of the two-provider example catalogue. -/
def c6ProviderB : ProviderConfig :=
  { provider_type := "claude", base_url := "https://api.anthropic.com",
    api_key := "k2", model := "claude-sonnet-4-20250514",
    context_window := none, api_version := some "2023-06-01" }

/-- A two-provider catalogue whose default is the first entry. -/
def c6Config : TsAppConfig :=
  { default := "a",
    providers :=
      [("a", { provider_type := "openai", base_url := "https://api.openai.com/v1",
               api_key := "k1", model := "gpt-4o", context_window := none,
               api_version := none }),
       ("b", c6ProviderB)] }

/-- The catalogue `deleteProvider` produces when deleting `a` from
`c6Config`. -/
def c6AfterConfig : TsAppConfig :=
  { default := "b", providers := [("b", c6ProviderB)] }

/-- A provider object carrying both the modern and the legacy kind field. -/
def c7Provider : RawProvider :=
  { provider_type := some "claude", type := some "openai",
    base_url := "https://api.anthropic.com", api_key := "k",
    model := "claude-sonnet-4-20250514", context_window := none,
    api_version := some "2023-06-01", extras := [] }

/-- Hook state streaming on `s1` with some content already accumulated. -/
def c8State : HookState :=
  { content := "sofar", loading := true, error := none,
    streamId := some "s1", activeStreamId := some "s1" }

/-- A terminal error event for the active stream `s1`. -/
def c8Event : LlmStreamEvent :=
  { stream_id := "s1", delta := "", done := true, error := some "401 invalid key" }

/-- A provider entry with neither `provider_type` nor `type`. -/
def c9Provider : RawProvider :=
  { provider_type := none, type := none, base_url := "http://localhost:11434/v1",
    api_key := "", model := "llama3.2", context_window := none,
    api_version := none, extras := [] }

/-- A loaded document containing an entry without any kind field. -/
def c9Config : AppConfig :=
  { default := "local", providers := [("local", c9Provider)], extras := [] }

/-- A provider entry with neither `provider_type` nor `type`. -/
def c10Provider : RawProvider :=
  { provider_type := none, type := none, base_url := "http://localhost:11434/v1",
    api_key := "", model := "llama3.2", context_window := none,
    api_version := none, extras := [] }

/-- A catalogue in which the entry `local` lacks both kind fields. -/
def c10Config : AppConfig :=
  { default := "openai",
    providers :=
      [("openai",
        { provider_type := some "openai", type := none,
          base_url := "https://api.openai.com/v1", api_key := "sk-x",
          model := "gpt-4o", context_window := none, api_version := none,
          extras := [] }),
       ("local", c10Provider)],
    extras := [] }

/-! Lemmas about the `llm-stream` listener. -/

lemma onLlmStreamEvent_activeStreamId (s : HookState) (e : LlmStreamEvent) :
    (onLlmStreamEvent s e).activeStreamId = s.activeStreamId := by
  unfold onLlmStreamEvent
  split
  · rfl
  · split
    · rfl
    · dsimp only
      split <;> split <;> rfl

lemma onLlmStreamEvent_content_of_match (s : HookState) (e : LlmStreamEvent)
    (hact : s.activeStreamId = some e.stream_id) (herr : e.error = none) :
    (onLlmStreamEvent s e).content = s.content ++ e.delta := by
  unfold onLlmStreamEvent
  rw [hact, herr]
  by_cases hd : e.delta = "" <;> by_cases hdone : e.done <;>
    simp [hd, hdone, jsTruthy, String.append_empty]

lemma processEvents_content (s : HookState) (es : List LlmStreamEvent) (sid : String)
    (hact : s.activeStreamId = some sid)
    (hids : ∀ e ∈ es, e.stream_id = sid)
    (herr : ∀ e ∈ es, e.error = none) :
    (processEvents s es).content = s.content ++ concatDeltas es := by
  induction es generalizing s with
  | nil => simp [processEvents, concatDeltas, String.append_empty]
  | cons e rest ih =>
    have he : e.stream_id = sid := hids e (List.mem_cons_self e rest)
    have hen : e.error = none := herr e (List.mem_cons_self e rest)
    have hstep : (onLlmStreamEvent s e).content = s.content ++ e.delta :=
      onLlmStreamEvent_content_of_match s e (by rw [hact, he]) hen
    have hact' : (onLlmStreamEvent s e).activeStreamId = some sid := by
      rw [onLlmStreamEvent_activeStreamId, hact]
    have hrest := ih (onLlmStreamEvent s e) hact'
      (fun x hx => hids x (List.mem_cons_of_mem e hx))
      (fun x hx => herr x (List.mem_cons_of_mem e hx))
    simp only [processEvents, List.foldl_cons] at hrest ⊢
    rw [hrest, hstep, concatDeltas, String.append_assoc]

/-- C3: for every sequence of `llm-stream` events bearing the active
stream identifier of the hook, delivered in order with every `error` field null
or absent, the `content` state after processing equals the concatenation
of the `delta` strings of the events in arrival order (empty deltas contribute
nothing). -/
theorem c3_content_is_delta_concat (s0 : HookState) (es : List LlmStreamEvent)
    (sid : String) (hstart : s0.content = "")
    (hact : s0.activeStreamId = some sid)
    (hids : ∀ e ∈ es, e.stream_id = sid)
    (herr : ∀ e ∈ es, e.error = none) :
    (processEvents s0 es).content = concatDeltas es := by
  rw [processEvents_content s0 es sid hact hids herr, hstart]
  exact String.empty_append _

/-- Witness for C3 on a concrete three-event stream with an empty delta in
the middle. -/
theorem c3_content_is_delta_concat_witness :
    (processEvents c3State c3Events).content = concatDeltas c3Events :=
  c3_content_is_delta_concat c3State c3Events "s1" rfl rfl (by decide) (by decide)

/-- C4: an `llm-stream` event whose `stream_id` differs from the active
stream identifier of the hook leaves the whole hook state — `content`, `error`,
`loading` and `streamId` — unchanged. -/
theorem c4_foreign_event_is_ignored (s : HookState) (e : LlmStreamEvent)
    (h : s.activeStreamId ≠ some e.stream_id) :
    onLlmStreamEvent s e = s := by
  unfold onLlmStreamEvent
  simp [h]

/-- Witness for C4: a stale event from stream `s0` arriving while `s1` is
active changes nothing. -/
theorem c4_foreign_event_is_ignored_witness :
    onLlmStreamEvent c4State c4Event = c4State :=
  c4_foreign_event_is_ignored c4State c4Event (by decide)

/-- C8: an event for the active stream whose `error` field is a non-empty
string sets the `error` state of the hook to exactly that string, sets
`loading` to false and leaves the accumulated `content` unchanged. -/
theorem c8_error_event_sets_error (s : HookState) (e : LlmStreamEvent) (m : String)
    (hact : s.activeStreamId = some e.stream_id)
    (herr : e.error = some m) (hm : m ≠ "") :
    (onLlmStreamEvent s e).error = some m ∧
      (onLlmStreamEvent s e).loading = false ∧
      (onLlmStreamEvent s e).content = s.content := by
  unfold onLlmStreamEvent
  rw [hact, herr]
  simp [jsTruthy, hm]

/-- Witness for C8 with the concrete error string `401 invalid key`. -/
theorem c8_error_event_sets_error_witness :
    (onLlmStreamEvent c8State c8Event).error = some "401 invalid key" ∧
      (onLlmStreamEvent c8State c8Event).loading = false ∧
      (onLlmStreamEvent c8State c8Event).content = c8State.content :=
  c8_error_event_sets_error c8State c8Event "401 invalid key" rfl rfl (by decide)

/-! Lemmas about the save/load conversion functions. -/

instance {ε α : Type} [DecidableEq ε] [DecidableEq α] : DecidableEq (Except ε α) :=
  fun a b =>
    match a, b with
    | .ok x, .ok y =>
        if h : x = y then .isTrue (by rw [h])
        else .isFalse fun hh => by cases hh; exact h rfl
    | .error x, .error y =>
        if h : x = y then .isTrue (by rw [h])
        else .isFalse fun hh => by cases hh; exact h rfl
    | .ok _, .error _ => .isFalse fun hh => by cases hh
    | .error _, .ok _ => .isFalse fun hh => by cases hh

instance (p : RawProvider) : Decidable (isNormalizedProv p) := by
  unfold isNormalizedProv; infer_instance

lemma toRustProvider_normalized (n : String) (p : RawProvider)
    (h : isNormalizedProv p) :
    ∃ w, toRustProvider n p = .ok w ∧ normalizeProvider w = p := by
  obtain ⟨hpt, hty, hex⟩ := h
  obtain ⟨pt, ty, burl, key, mdl, cw, av, ex⟩ := p
  dsimp at hpt hty hex
  subst hty hex
  cases pt with
  | none => simp [jsTruthy] at hpt
  | some t =>
    have ht : t ≠ "" := by simpa [jsTruthy] using hpt
    refine ⟨{ provider_type := none, type := some t, base_url := burl,
              api_key := key, model := mdl, context_window := cw,
              api_version := av, extras := [] }, ?_, ?_⟩
    · simp [toRustProvider, Option.orElse, jsTruthy, ht]
    · simp [normalizeProvider, Option.orElse]

lemma toRustProviders_normalized (l : List (String × RawProvider))
    (h : ∀ kv ∈ l, isNormalizedProv kv.2) :
    ∃ ws, toRustProviders l = .ok ws ∧
      ws.map (fun kv => (kv.1, normalizeProvider kv.2)) = l := by
  induction l with
  | nil => exact ⟨[], rfl, rfl⟩
  | cons kv rest ih =>
    obtain ⟨n, p⟩ := kv
    obtain ⟨w, hw, hnw⟩ :=
      toRustProvider_normalized n p (h (n, p) (List.mem_cons_self _ _))
    obtain ⟨ws, hws, hmap⟩ := ih fun x hx => h x (List.mem_cons_of_mem _ hx)
    refine ⟨(n, w) :: ws, ?_, ?_⟩
    · show (do
        let w ← toRustProvider n p
        let ws ← toRustProviders rest
        return (n, w) :: ws) = Except.ok ((n, w) :: ws)
      rw [hw, hws]
      rfl
    · simp [hmap, hnw]

/-- C1 counterexample: the one-provider catalogue whose entry carries the
unknown key `note` does not survive the save/load round trip — the fresh
objects built by `toRustConfig` and the `loadConfig` normalization carry
only the known fields, so the extra key is dropped. -/
theorem c1_roundtrip_counterexample :
    saveThenLoad c1CexConfig ≠ .ok c1CexConfig := by decide

/-- C1 amended: for every catalogue whose provider entries are in
normalized shape (truthy `provider_type`, no legacy `type` key, no unknown
keys) and which carries no unknown top-level keys, saving via
`save_toml_config` and loading via `load_toml_config` yields a deep-equal
catalogue; unknown keys are not preserved — they are dropped by the
TypeScript conversion even with a backend that round-trips the wire
document exactly. -/
theorem c1_roundtrip_amended (cfg : AppConfig)
    (hp : ∀ kv ∈ cfg.providers, isNormalizedProv kv.2)
    (he : cfg.extras = []) :
    saveThenLoad cfg = .ok cfg := by
  obtain ⟨ws, hws, hmap⟩ := toRustProviders_normalized cfg.providers hp
  unfold saveThenLoad toRustConfig
  rw [hws]
  simp only [Except.map, Except.bind, bind, pure, Except.pure, loadNormalizeConfig, hmap]
  cases cfg with
  | mk d ps ex =>
    dsimp at he ⊢
    rw [he]

/-- Witness for C1 amended on a concrete normalized catalogue. -/
theorem c1_roundtrip_amended_witness :
    saveThenLoad c1WitConfig = .ok c1WitConfig :=
  c1_roundtrip_amended c1WitConfig (by decide) rfl

/-- C7: `toRustConfig` persists the provider kind under the external field
name `type` (and no `provider_type` key), and the load normalization
accepts the kind under either `provider_type` or the legacy `type`, with
`provider_type` taking precedence when both are present. -/
theorem c7_wire_field_names (n : String) (p : RawProvider) :
    (∀ w, toRustProvider n p = .ok w →
        w.type = (p.provider_type.orElse fun _ => p.type) ∧ w.provider_type = none)
    ∧ (∀ v, p.provider_type = some v → (normalizeProvider p).provider_type = some v)
    ∧ (p.provider_type = none →
        (normalizeProvider p).provider_type = some (p.type.getD "openai")) := by
  refine ⟨?_, ?_, ?_⟩
  · intro w hw
    unfold toRustProvider at hw
    split at hw
    · cases hw
      exact ⟨rfl, rfl⟩
    · cases hw
  · intro v hv
    simp [normalizeProvider, hv, Option.orElse]
  · intro hv
    cases hty : p.type <;> simp [normalizeProvider, hv, hty, Option.orElse]

/-- Witness for C7: on a provider carrying both `provider_type = claude`
and legacy `type = openai`, the load normalization keeps `claude`. -/
theorem c7_wire_field_names_witness :
    (normalizeProvider c7Provider).provider_type = some "claude" :=
  (c7_wire_field_names "x" c7Provider).2.1 "claude" rfl

/-- C9: a provider entry returned by `load_toml_config` with neither a
`provider_type` nor a `type` field does not make the load path fail — the
normalization (a total function) keeps the entry and defaults its
`provider_type` to `openai`. -/
theorem c9_missing_kind_defaults_openai (cfg : AppConfig) (n : String)
    (p : RawProvider) (hmem : (n, p) ∈ cfg.providers)
    (h1 : p.provider_type = none) (h2 : p.type = none) :
    (n, normalizeProvider p) ∈ (loadNormalizeConfig cfg).providers ∧
      (normalizeProvider p).provider_type = some "openai" := by
  constructor
  · unfold loadNormalizeConfig
    exact List.mem_map_of_mem (fun kv => (kv.1, normalizeProvider kv.2)) hmem
  · simp [normalizeProvider, h1, h2, Option.orElse]

/-- Witness for C9 on a concrete kind-less local provider entry. -/
theorem c9_missing_kind_defaults_openai_witness :
    ("local", normalizeProvider c9Provider) ∈ (loadNormalizeConfig c9Config).providers ∧
      (normalizeProvider c9Provider).provider_type = some "openai" :=
  c9_missing_kind_defaults_openai c9Config "local" c9Provider (by decide) rfl rfl

/-- C2: for a Claude record with a valid absolute HTTP/HTTPS `base_url`,
`start_llm_stream` succeeds iff `api_version` is present and non-empty; with
a missing or empty `api_version` it fails with `InvalidConfig`, and on that
path no `HttpRequest` is built, so no network I/O happens. The Rust
dispatcher is modelled from the spec (§4.5); see `start_llm_stream`. -/
theorem c2_claude_requires_api_version (r : StartReq) (sid : String)
    (hk : r.provider_type = "claude") (hu : validBaseUrl r.base_url = true) :
    ((∃ x, start_llm_stream r sid = .ok x) ↔ jsTruthy r.api_version = true)
    ∧ (jsTruthy r.api_version = false →
        start_llm_stream r sid = .error .invalidConfig) := by
  unfold start_llm_stream validateStart
  rw [hk, hu]
  by_cases hav : jsTruthy r.api_version = true <;> simp [hav]

/-- Witness for C2: a well-formed Claude request with
`api_version = 2023-06-01` is accepted. -/
theorem c2_claude_requires_api_version_witness :
    ∃ x, start_llm_stream c2Req "s1" = .ok x :=
  (c2_claude_requires_api_version c2Req "s1" rfl (by decide)).1.mpr (by decide)

/-- C5 counterexample: testing the concrete OpenAI provider publishes two
events — the probe delta and the terminal event — on the channel named
`llm-stream`, so llm-stream events are produced as a consequence of the
test, contrary to the claim. `handleTest` (in `ApiConfigPage.tsx` and
`SettingsModal.tsx`) invokes `start_llm_stream` itself; the publishing
side of the session is modelled from the spec. -/
theorem c5_test_publishes_counterexample :
    handleTestPublished c5Provider "s1" ["OK"] =
      [{ channel := "llm-stream",
         event := { stream_id := "s1", delta := "OK", done := false, error := none } },
       { channel := "llm-stream",
         event := { stream_id := "s1", delta := "", done := true, error := none } }]
    ∧ "llm-stream" ∈ (handleTestPublished c5Provider "s1" ["OK"]).map Published.channel := by
  constructor
  · decide
  · decide

/-- C5 amended: the test-connection probe reuses `start_llm_stream`, so
every event it publishes travels on the shared `llm-stream` channel — and
whenever the probe record passes validation at least one such event is
published; there is no distinct test channel. -/
theorem c5_test_probe_publishes_on_llm_stream (p : ProviderConfig) (sid : String)
    (up : List String) :
    (∀ ev ∈ handleTestPublished p sid up, ev.channel = "llm-stream")
    ∧ (validateStart (handleTestRequest p) = true →
        handleTestPublished p sid up ≠ []) := by
  unfold handleTestPublished start_llm_stream
  by_cases hv : validateStart (handleTestRequest p) = true
  · simp only [hv, if_true]
    constructor
    · intro ev hev
      unfold sessionEvents at hev
      rcases List.mem_append.1 hev with h | h
      · obtain ⟨d, _, rfl⟩ := List.mem_map.1 h
        rfl
      · rw [List.mem_singleton.1 h]
    · intro _
      unfold sessionEvents
      simp
  · simp [hv]

/-- Witness for C5 amended: the concrete probe with a validated record
publishes a non-empty event list. -/
theorem c5_test_probe_publishes_on_llm_stream_witness :
    handleTestPublished c5Provider "s2" ["OK"] ≠ [] :=
  (c5_test_probe_publishes_on_llm_stream c5Provider "s2" ["OK"]).2 (by decide)

lemma filter_keyNe_nonempty (l : List (String × ProviderConfig)) (name : String)
    (hnd : (l.map Prod.fst).Nodup) (hlen : 1 < l.length) :
    l.filter (fun kv => kv.1 ≠ name) ≠ [] := by
  cases l with
  | nil => simp at hlen
  | cons a l2 =>
    cases l2 with
    | nil => simp at hlen
    | cons b rest =>
      obtain ⟨k1, v1⟩ := a
      obtain ⟨k2, v2⟩ := b
      have hk12 : k1 ≠ k2 := by
        simp only [List.map_cons, List.nodup_cons, List.mem_cons] at hnd
        exact fun h => hnd.1 (Or.inl h)
      by_cases h1 : k1 = name
      · have h2 : k2 ≠ name := fun h => hk12 (h1 ▸ h ▸ rfl)
        intro hfil
        have hmem : (k2, v2) ∈
            ((k1, v1) :: (k2, v2) :: rest).filter (fun kv => kv.1 ≠ name) :=
          List.mem_filter.2 ⟨by simp, by simpa using h2⟩
        rw [hfil] at hmem
        exact absurd hmem (List.not_mem_nil _)
      · intro hfil
        have hmem : (k1, v1) ∈
            ((k1, v1) :: (k2, v2) :: rest).filter (fun kv => kv.1 ≠ name) :=
          List.mem_filter.2 ⟨by simp, by simpa using h1⟩
        rw [hfil] at hmem
        exact absurd hmem (List.not_mem_nil _)

/-- C6: on a catalogue satisfying the invariant (non-empty providers map
whose `default` names an entry) with unique provider names,
`deleteProvider` throws whenever the catalogue has exactly one provider
(the pure model returns no new catalogue on a throw, so the stored one is
unchanged), and every successfully returned catalogue satisfies the
invariant again; when the deleted name was the default, the new default is
a remaining provider, in particular not the deleted name. -/
theorem c6_delete_preserves_invariant (cfg : TsAppConfig) (name : String)
    (hinv : cfgInvariant cfg) (hnd : (cfg.providers.map Prod.fst).Nodup) :
    (cfg.providers.length = 1 → ∃ msg, deleteProvider cfg name = .error msg)
    ∧ (∀ cfg', deleteProvider cfg name = .ok cfg' →
        cfgInvariant cfg' ∧ (cfg.default = name → cfg'.default ≠ name)) := by
  constructor
  · intro hlen
    exact ⟨"Cannot delete the last provider", by unfold deleteProvider; simp [hlen]⟩
  · intro cfg' hok
    unfold deleteProvider at hok
    by_cases hlen : cfg.providers.length ≤ 1
    · rw [if_pos hlen] at hok
      cases hok
    · rw [if_neg hlen] at hok
      have hlen' : 1 < cfg.providers.length := Nat.lt_of_not_le hlen
      have hne : cfg.providers.filter (fun kv => kv.1 ≠ name) ≠ [] :=
        filter_keyNe_nonempty cfg.providers name hnd hlen'
      unfold saveTsConfig at hok
      dsimp only at hok
      cases hcase : firstTsOffender (cfg.providers.filter fun kv => kv.1 ≠ name) with
      | some n =>
        rw [hcase] at hok
        cases hok
      | none =>
        rw [hcase] at hok
        injection hok with h
        subst h
        by_cases hd : cfg.default = name
        · obtain ⟨kv, tl, hcons⟩ := List.exists_cons_of_ne_nil hne
          have hhead : (cfg.providers.filter (fun kv => kv.1 ≠ name)).head? = some kv := by
            rw [hcons]; rfl
          have hkvmem : kv ∈ cfg.providers.filter (fun kv => kv.1 ≠ name) := by
            rw [hcons]; exact List.mem_cons_self _ _
          have hkvne : kv.1 ≠ name := by
            have := (List.mem_filter.1 hkvmem).2
            simpa using this
          refine ⟨⟨by simpa using hne, ?_⟩, fun _ => ?_⟩
          · show (if cfg.default = name then _ else cfg.default) ∈ _
            simp only [hd, if_pos rfl, hhead, Option.map_some, Option.getD_some]
            exact List.mem_map_of_mem Prod.fst hkvmem
          · show (if cfg.default = name then _ else cfg.default) ≠ name
            simp only [hd, if_pos rfl, hhead, Option.map_some, Option.getD_some]
            exact hkvne
        · have hdef : cfg.default ∈
              (cfg.providers.filter (fun kv => kv.1 ≠ name)).map Prod.fst := by
            obtain ⟨kv, hkv, hfst⟩ := List.mem_map.1 hinv.2
            refine List.mem_map.2 ⟨kv, List.mem_filter.2 ⟨hkv, ?_⟩, hfst⟩
            simp [hfst, hd]
          refine ⟨⟨by simpa using hne, ?_⟩, fun h => absurd h hd⟩
          show (if cfg.default = name then _ else cfg.default) ∈ _
          simpa [hd] using hdef

/-- Witness for C6: deleting the default provider `a` from the concrete
two-provider catalogue yields a catalogue satisfying the invariant with a
reassigned default. -/
theorem c6_delete_preserves_invariant_witness :
    cfgInvariant c6AfterConfig ∧ ("a" = "a" → c6AfterConfig.default ≠ "a") :=
  (c6_delete_preserves_invariant c6Config "a" (by decide) (by decide)).2
    c6AfterConfig (by decide)

lemma toRustProviders_offender (l : List (String × RawProvider))
    (h : ∃ kv ∈ l, rawOffender kv.2 = true) :
    ∃ n p, (n, p) ∈ l ∧ rawOffender p = true ∧
      toRustProviders l = .error (missingMsg n) := by
  induction l with
  | nil => simp at h
  | cons kv rest ih =>
    obtain ⟨n0, p0⟩ := kv
    by_cases h0 : rawOffender p0 = true
    · refine ⟨n0, p0, List.mem_cons_self _ _, h0, ?_⟩
      have hft : jsTruthy (p0.provider_type.orElse fun _ => p0.type) = false := by
        simpa [rawOffender] using h0
      show (do
        let w ← toRustProvider n0 p0
        let ws ← toRustProviders rest
        return (n0, w) :: ws) = Except.error (missingMsg n0)
      unfold toRustProvider
      rw [hft]
      rfl
    · have hrest : ∃ kv ∈ rest, rawOffender kv.2 = true := by
        obtain ⟨kv, hkv, hoff⟩ := h
        rcases List.mem_cons.1 hkv with heq | hkv'
        · rw [heq] at hoff
          exact absurd hoff h0
        · exact ⟨kv, hkv', hoff⟩
      obtain ⟨n, p, hmem, hoff, herr⟩ := ih hrest
      refine ⟨n, p, List.mem_cons_of_mem _ hmem, hoff, ?_⟩
      have htru : jsTruthy (p0.provider_type.orElse fun _ => p0.type) = true := by
        cases hb : jsTruthy (p0.provider_type.orElse fun _ => p0.type)
        · exact absurd (by simp [rawOffender, hb]) h0
        · rfl
      show (do
        let w ← toRustProvider n0 p0
        let ws ← toRustProviders rest
        return (n0, w) :: ws) = Except.error (missingMsg n)
      unfold toRustProvider
      rw [htru, herr]
      rfl

/-- C10: for every catalogue in which some provider entry has neither a
`provider_type` nor a `type` field, `saveAppConfig` throws
`Missing provider_type for provider "name"` (naming a provider whose kind
resolution is falsy) out of `toRustConfig`, before `save_toml_config` is
invoked — the result is an error and no wire document is produced, so the
persisted catalogue is unchanged. -/
theorem c10_missing_kind_aborts_save (cfg : AppConfig) (n0 : String)
    (p0 : RawProvider) (hmem : (n0, p0) ∈ cfg.providers)
    (h1 : p0.provider_type = none) (h2 : p0.type = none) :
    ∃ n p, (n, p) ∈ cfg.providers ∧ rawOffender p = true ∧
      saveAppConfig cfg = .error (missingMsg n) ∧
      ∀ w, saveAppConfig cfg ≠ .ok w := by
  have hoff : rawOffender p0 = true := by
    simp [rawOffender, h1, h2, jsTruthy, Option.orElse]
  obtain ⟨n, p, hm, ho, he⟩ :=
    toRustProviders_offender cfg.providers ⟨(n0, p0), hmem, hoff⟩
  have hsave : saveAppConfig cfg = .error (missingMsg n) := by
    unfold saveAppConfig toRustConfig
    show (do
      let provs ← toRustProviders cfg.providers
      return ({ default := cfg.default, providers := provs,
                extras := [] } : AppConfig)) = Except.error (missingMsg n)
    rw [he]
    rfl
  refine ⟨n, p, hm, ho, hsave, ?_⟩
  intro w hw
  rw [hsave] at hw
  cases hw

/-- Witness for C10 on the concrete catalogue whose `local` entry lacks
both kind fields. -/
theorem c10_missing_kind_aborts_save_witness :
    ∃ n p, (n, p) ∈ c10Config.providers ∧ rawOffender p = true ∧
      saveAppConfig c10Config = .error (missingMsg n) ∧
      ∀ w, saveAppConfig c10Config ≠ .ok w :=
  c10_missing_kind_aborts_save c10Config "local" c10Provider (by decide) rfl rfl

end LitReview
